import Mathlib

/-!
Verification of the spreadsheet formula semantics generated by
scripts/create_ibond_tracker.py. The script emits Excel formulas as
strings; the definitions below give those formulas a shallow embedding:
dates are (year, month, day) triples compared through a linear key,
numbers are exact reals, and every formula step that can fault returns an
explicit error value or the blank (empty-text) value the workbook would
display.
-/

noncomputable section

/-- A calendar date as stored in a cell. -/
structure Date where
  y : ℕ
  m : ℕ
  d : ℕ
deriving DecidableEq, Inhabited

/-- Linear key respecting the serial-number order of valid dates. -/
def dateKey (a : Date) : ℕ := (a.y * 12 + a.m) * 32 + a.d

def isLeap (y : ℕ) : Bool := (y % 4 == 0 && y % 100 != 0) || y % 400 == 0

def daysInMonth (y m : ℕ) : ℕ :=
  if m = 2 then (if isLeap y then 29 else 28)
  else if m = 4 ∨ m = 6 ∨ m = 9 ∨ m = 11 then 30
  else 31

/-- EDATE: advance a date by n months, clamping the day of month. -/
def edate (a : Date) (n : ℕ) : Date :=
  let t := a.y * 12 + (a.m - 1) + n
  { y := t / 12, m := t % 12 + 1, d := min a.d (daysInMonth (t / 12) (t % 12 + 1)) }

/-- DATEDIF with unit m: completed months from s to e (meaningful for s ≤ e). -/
def monthsBetween (s e : Date) : ℕ :=
  (e.y * 12 + e.m) - (s.y * 12 + s.m) - (if e.d < s.d then 1 else 0)

/-- A displayed cell value: a number, a text (the empty text being the blank
result the generated formulas produce on absorbed faults), or a surfaced
spreadsheet error. -/
inductive XV where
  | num (x : ℝ)
  | text (s : String)
  | err

/-- The Rates sheet data region: effective date and annual variable rate,
row by row (0-indexed; sheet row = index + 2). -/
abbrev RateTable := List (Date × ℝ)

/-- MATCH(x, dates, 1) on an ascending column: index of the last entry whose
effective date is at most x; none models the #N/A of a failed MATCH. -/
def matchIdx : RateTable → Date → Option ℕ
  | [], _ => none
  | e :: rest, x =>
    match matchIdx rest x with
    | some j => some (j + 1)
    | none => if dateKey e.1 ≤ dateKey x then some 0 else none

/-- INDEX(Rates!B:B, i): the rate stored at row i, 0 for a cell outside the
filled region (an empty cell reads as 0 in arithmetic). -/
def rateAt (tbl : RateTable) (i : ℕ) : ℝ := ((tbl.get? i).map Prod.snd).getD 0

/-- Composite annual rate: fixed + variable + fixed*variable. -/
def compositeRate (fixed var : ℝ) : ℝ := fixed + var + fixed * var

/-- Growth factor of one full six-month period. -/
def periodGrowth (fixed var : ℝ) : ℝ := 1 + compositeRate fixed var / 2

/-- LN with the Excel domain: faults on a nonpositive argument. -/
def lnX (x : ℝ) : Option ℝ := if 0 < x then some (Real.log x) else none

/-- SUM(LN(v)) over a vector, propagating the fault. -/
def sumLn (l : List ℝ) : Option ℝ :=
  l.foldr (fun x acc => (lnX x).bind (fun lx => acc.map (fun s => lx + s))) (some 0)

/-- EXP(SUM(LN(v))): the cumulative-product encoding used by the Inventory
CurrentValue formula for the full-period product. -/
def expSumLn (l : List ℝ) : Option ℝ := (sumLn l).map Real.exp

/-- POWER(b, r/6) with the Excel domain: faults on a nonpositive base unless
the exponent is 0 and the base nonzero. -/
def powerX (b : ℝ) (r : ℕ) : Option ℝ :=
  if 0 < b then some (b ^ ((r : ℝ) / 6))
  else if b ≠ 0 ∧ r = 0 then some 1 else none

/-- ROUND(x, 2): round half away from zero at two decimals. -/
def round2 (x : ℝ) : ℝ :=
  if 0 ≤ x then (⌊x * 100 + 1 / 2⌋ : ℝ) / 100
  else -((⌊-x * 100 + 1 / 2⌋ : ℝ) / 100)

/-- Serial number 0, the value a blank date cell contributes to DATEDIF:
the day before 1900-01-01, displayed as 1900-01-00. -/
def serialZero : Date := ⟨1900, 1, 0⟩

/-- Inventory MonthsHeld: IFERROR(DATEDIF(C, TODAY(), m), ""). A blank
IssueDate is coerced by DATEDIF to serial number 0; DATEDIF only faults when
the start date is after the end date. -/
def inventoryMonthsHeld (issue : Option Date) (today : Date) : XV :=
  let start := issue.getD serialZero
  if dateKey start ≤ dateKey today then XV.num (monthsBetween start today)
  else XV.text ""

/-- The period growth factors of the completed periods, read off the rate
column at rows s, s+1, ... (the varVec of the CurrentValue formula). -/
def invFactors (fixed : ℝ) (tbl : RateTable) (s k : ℕ) : List ℝ :=
  (List.range k).map (fun i => periodGrowth fixed (rateAt tbl (s + i)))

/-- Body of the Inventory CurrentValue LET once the three inputs are present
and MATCH has resolved startIdx = s: fullPeriods, monthsInPeriod, fullProd
as EXP(SUM(LN(...))), lastVar, the partial factor, and the final rounded
product guarded by IFERROR (any fault resolves to blank). -/
def invValueCore (principal fixed : ℝ) (tbl : RateTable) (s months : ℕ) : XV :=
  let k := months / 6
  let r := months % 6
  let fullProd : Option ℝ := if k = 0 then some 1 else expSumLn (invFactors fixed tbl s k)
  let lastVar := rateAt tbl (s + k)
  let partialFac := powerX (periodGrowth fixed lastVar) r
  match fullProd, partialFac with
  | some fp, some pf => XV.num (round2 (principal * fp * pf))
  | _, _ => XV.text ""

/-- The Inventory CurrentValue formula: blank when any of the three required
inputs is blank, blank when MATCH or a later step faults (the closing
IFERROR absorbs the propagated error), otherwise the rounded accrued
value. -/
def inventoryCurrentValue (issue : Option Date) (principal fixed : Option ℝ)
    (tbl : RateTable) (today : Date) : XV :=
  match issue, principal, fixed with
  | some issueD, some p, some f =>
    let months := if dateKey issueD ≤ dateKey today then monthsBetween issueD today else 0
    match matchIdx tbl issueD with
    | none => XV.text ""
    | some s => invValueCore p f tbl s months
  | _, _, _ => XV.text ""

/-- One Inventory data row. -/
structure InvRow where
  bondID : Option String
  owner : Option String
  issueDate : Option Date
  purchaseAmount : Option ℝ
  fixedRate : Option ℝ
  monthsToProject : Option ℕ

/-- XLOOKUP($B$1, Inventory A column, ...): the first row whose BondID
matches the selection exactly; none models the #N/A of no match. -/
def findRow (sel : String) (inv : List InvRow) : Option InvRow :=
  inv.find? (fun row => decide (row.bondID = some sel))

/-- Resolved B3 (IssueDate): blank when no row matches (IFERROR turns the
#N/A into the empty text); a matched row with a blank IssueDate cell is
returned by XLOOKUP as 0, serial zero. -/
def schedIssue (sel : String) (inv : List InvRow) : Option Date :=
  (findRow sel inv).map (fun row => row.issueDate.getD serialZero)

/-- Resolved B4 (PurchaseAmount). -/
def schedPrincipal (sel : String) (inv : List InvRow) : Option ℝ :=
  (findRow sel inv).map (fun row => row.purchaseAmount.getD 0)

/-- Resolved B5 (FixedRate). -/
def schedFixed (sel : String) (inv : List InvRow) : Option ℝ :=
  (findRow sel inv).map (fun row => row.fixedRate.getD 0)

/-- Resolved B6 (MonthsToProject): IFERROR(XLOOKUP(...), 0). -/
def schedMonthsToProject (sel : String) (inv : List InvRow) : ℕ :=
  ((findRow sel inv).map (fun row => row.monthsToProject.getD 0)).getD 0

/-- SEQUENCE(rows, 1, start, step) as a flat list. -/
def seqX (rows start step : ℕ) : List ℕ :=
  (List.range rows).map (fun i => start + step * i)

/-- Column A of the schedule: IF($B$3 blank, blank, EDATE($B$3,
SEQUENCE($B$6+1, 1, 0, 1))); none models the blank non-spilled state. -/
def schedMonthCol (sel : String) (inv : List InvRow) : Option (List Date) :=
  (schedIssue sel inv).map
    (fun issue => (seqX (schedMonthsToProject sel inv + 1) 0 1).map (edate issue))

/-- Column B of the schedule: IF($B$3 blank, blank, SEQUENCE($B$6+1, 1, 0, 1)). -/
def schedMonthIdxCol (sel : String) (inv : List InvRow) : Option (List ℕ) :=
  (schedIssue sel inv).map (fun _ => seqX (schedMonthsToProject sel inv + 1) 0 1)

/-- One entry of schedule column C (VariableRate): the rate at row
startIdx + INT(m/6); the cell surfaces #N/A when MATCH fails, since this
formula has no IFERROR. -/
def schedVarRateAt (issue : Date) (tbl : RateTable) (m : ℕ) : XV :=
  match matchIdx tbl issue with
  | none => XV.err
  | some s => XV.num (rateAt tbl (s + m / 6))

/-- Schedule column C as spilled over the MonthIndex values. -/
def schedVarRateCol (sel : String) (inv : List InvRow) (tbl : RateTable) :
    Option (List XV) :=
  (schedIssue sel inv).map
    (fun issue => (seqX (schedMonthsToProject sel inv + 1) 0 1).map
      (schedVarRateAt issue tbl))

/-- SCAN(a, v, LAMBDA(a, x, a*x)): the running products, one per element. -/
def scanX (a : ℝ) : List ℝ → List ℝ
  | [] => []
  | x :: xs => (a * x) :: scanX (a * x) xs

/-- One entry of schedule column E (Value): numPeriods = INT(maxM/6)+1
growth factors, their SCAN running products, fullProd = INDEX(cumProdVec,
k+1) (one-based, hence the running product of the first k+1 factors),
the partial factor POWER(INDEX(halfFacVec, k+1), r/6), and the rounded
product; no IFERROR, so any fault surfaces as an error. -/
def schedValueAt (issue : Date) (principal fixed : ℝ) (tbl : RateTable)
    (maxM m : ℕ) : XV :=
  match matchIdx tbl issue with
  | none => XV.err
  | some s =>
    let numPeriods := maxM / 6 + 1
    let halfFacVec := (List.range numPeriods).map
      (fun i => periodGrowth fixed (rateAt tbl (s + i)))
    let cumProdVec := scanX 1 halfFacVec
    let k := m / 6
    let r := m % 6
    match cumProdVec.get? k, halfFacVec.get? k with
    | some fullProd, some hf =>
      match powerX hf r with
      | some pf => XV.num (round2 (principal * fullProd * pf))
      | none => XV.err
    | _, _ => XV.err

/-- Schedule column E as spilled over the MonthIndex values. -/
def schedValueCol (sel : String) (inv : List InvRow) (tbl : RateTable) :
    Option (List XV) :=
  (schedIssue sel inv).map
    (fun issue => (seqX (schedMonthsToProject sel inv + 1) 0 1).map
      (schedValueAt issue ((schedPrincipal sel inv).getD 0)
        ((schedFixed sel inv).getD 0) tbl (schedMonthsToProject sel inv)))

/-- The rate selected by the words of the spec: the latest announced rate
with effective date at most the target date. -/
def specLatestRateLE (tbl : RateTable) (target : Date) : Option ℝ :=
  (matchIdx tbl target).map (rateAt tbl)

/-- The rate the generated formulas actually use for period i: the entry at
row startIdx + i, where startIdx is the MATCH of the issue date alone. -/
def codeRateAtPeriod (tbl : RateTable) (issue : Date) (i : ℕ) : Option ℝ :=
  (matchIdx tbl issue).map (fun s => rateAt tbl (s + i))

/-! ## Concrete data used by the closed theorems -/

/-- One-entry rate table: 5 percent effective 2024-01-01. -/
def tblC1 : RateTable := [(⟨2024, 1, 1⟩, 5 / 100)]

/-- Sample inventory mirroring the example row the script writes. -/
def invSample : List InvRow :=
  [⟨some "EX-0001", some "Sample Owner", some ⟨2024, 1, 15⟩, some 1000,
    some (9 / 1000), some 2⟩]

/-! ## Claim theorems -/

/-- C1 (code bug): with issueDate 2024-01-15, purchaseAmount 1000, fixedRate
0 and a rate table whose applicable variable rate is 5 percent, the Inventory
CurrentValue at monthsHeld 0 is exactly the purchase amount 1000, but the
BondSchedule Value cell at MonthIndex 0 is 1025: the SCAN running product is
indexed at k+1, so it already contains the current period full growth
factor instead of the empty product. -/
theorem claim1_schedule_value_at_month_zero_diverges :
    inventoryCurrentValue (some ⟨2024, 1, 15⟩) (some 1000) (some 0) tblC1
      ⟨2024, 1, 15⟩ = XV.num 1000
    ∧ schedValueAt ⟨2024, 1, 15⟩ 1000 0 tblC1 0 0 = XV.num 1025
    ∧ (1025 : ℝ) ≠ 1000 := by
  refine ⟨?_, ?_, by norm_num⟩
  · norm_num [inventoryCurrentValue, invValueCore, invFactors, matchIdx, rateAt,
      periodGrowth, compositeRate, powerX, round2, monthsBetween, dateKey, tblC1]
  · norm_num [schedValueAt, matchIdx, rateAt, periodGrowth, compositeRate,
      powerX, round2, dateKey, tblC1, scanX, List.range_succ]

/-- C5 (code bug): for a row whose IssueDate is blank, the MonthsHeld formula
does not resolve to blank: DATEDIF coerces the blank to serial number 0 and
returns the month count since 1900-01-00 (1521 when evaluated on
2026-10-12), while CurrentValue does resolve to blank. -/
theorem claim5_blank_issue_monthsheld_is_numeric :
    inventoryMonthsHeld none ⟨2026, 10, 12⟩ = XV.num 1521
    ∧ inventoryMonthsHeld none ⟨2026, 10, 12⟩ ≠ XV.text ""
    ∧ inventoryCurrentValue none (some 1000) (some (9 / 1000)) tblC1
        ⟨2026, 10, 12⟩ = XV.text "" := by
  refine ⟨?_, ?_, rfl⟩
  · norm_num [inventoryMonthsHeld, monthsBetween, serialZero, dateKey]
  · norm_num [inventoryMonthsHeld, monthsBetween, serialZero, dateKey]
    intro h
    exact XV.noConfusion h

/-- C9 (confirmed): when the selected bondID matches no Inventory row, every
resolved lookup field on BondSchedule is blank (MonthsToProject resolves to
0) and all spilled schedule columns are blank, producing no rows. -/
theorem claim9_unmatched_bond_yields_blanks (sel : String) (inv : List InvRow)
    (tbl : RateTable) (h : findRow sel inv = none) :
    schedIssue sel inv = none ∧ schedPrincipal sel inv = none
    ∧ schedFixed sel inv = none ∧ schedMonthsToProject sel inv = 0
    ∧ schedMonthCol sel inv = none ∧ schedMonthIdxCol sel inv = none
    ∧ schedVarRateCol sel inv tbl = none ∧ schedValueCol sel inv tbl = none := by
  simp [schedIssue, schedPrincipal, schedFixed, schedMonthsToProject,
    schedMonthCol, schedMonthIdxCol, schedVarRateCol, schedValueCol, h]

/-- Witness for C9: the bondID ZZ-MISSING matches nothing in the sample
inventory, and all resolved fields and columns are blank there. -/
theorem claim9_witness :
    findRow "ZZ-MISSING" invSample = none
    ∧ (schedIssue "ZZ-MISSING" invSample = none
      ∧ schedPrincipal "ZZ-MISSING" invSample = none
      ∧ schedFixed "ZZ-MISSING" invSample = none
      ∧ schedMonthsToProject "ZZ-MISSING" invSample = 0
      ∧ schedMonthCol "ZZ-MISSING" invSample = none
      ∧ schedMonthIdxCol "ZZ-MISSING" invSample = none
      ∧ schedVarRateCol "ZZ-MISSING" invSample tblC1 = none
      ∧ schedValueCol "ZZ-MISSING" invSample tblC1 = none) :=
  ⟨rfl, claim9_unmatched_bond_yields_blanks "ZZ-MISSING" invSample tblC1 rfl⟩

/-- Two-entry rate table six months apart: 5 percent effective 2024-01-01
and 3 percent effective 2024-07-01. -/
def tblC2 : RateTable := [(⟨2024, 1, 1⟩, 5 / 100), (⟨2024, 7, 1⟩, 3 / 100)]

/-- C2 (code bug): at monthsHeld 6 with the same bond and rate table, the
Inventory accrual formula yields 1025.00 but the BondSchedule Value cell at
MonthIndex 6 yields 1040.38: the schedule multiplies in the running product
of the first k+1 growth factors where the accrual model uses the first k. -/
theorem claim2_schedule_differs_from_inventory_model :
    inventoryCurrentValue (some ⟨2024, 1, 15⟩) (some 1000) (some 0) tblC2
      ⟨2024, 7, 15⟩ = XV.num 1025
    ∧ schedValueAt ⟨2024, 1, 15⟩ 1000 0 tblC2 6 6 = XV.num (104038 / 100)
    ∧ (104038 / 100 : ℝ) ≠ 1025 := by
  refine ⟨?_, ?_, by norm_num⟩
  · norm_num [inventoryCurrentValue, invValueCore, invFactors, matchIdx, rateAt,
      periodGrowth, compositeRate, powerX, round2, monthsBetween, dateKey, tblC2,
      expSumLn, sumLn, lnX, Real.exp_log, List.range_succ]
  · norm_num [schedValueAt, matchIdx, rateAt, periodGrowth, compositeRate,
      powerX, round2, dateKey, tblC2, scanX, List.range_succ]

/-- One-entry rate table whose only effective date is 2024-05-01. -/
def tblC6 : RateTable := [(⟨2024, 5, 1⟩, 49 / 1000)]

/-- C6 counterexample: for a bond issued 2024-01-15, before every effective
date in the table, the BondSchedule VariableRate cell surfaces the #N/A
error of the failed MATCH instead of resolving to blank: the schedule
columns carry no IFERROR. -/
theorem claim6_schedule_surfaces_error :
    schedVarRateAt ⟨2024, 1, 15⟩ tblC6 0 = XV.err
    ∧ schedValueAt ⟨2024, 1, 15⟩ 1000 0 tblC6 6 0 = XV.err
    ∧ XV.err ≠ XV.text "" :=
  ⟨rfl, rfl, fun h => XV.noConfusion h⟩

/-- C6 amended: when the rate lookup finds no effective date at or before
the issue date, the Inventory CurrentValue resolves to blank (its IFERROR
absorbs the propagated error), while the BondSchedule VariableRate and
Value cells surface the error. -/
theorem claim6_lookup_miss_amended (issue : Date) (p f : ℝ) (tbl : RateTable)
    (today : Date) (maxM m : ℕ) (h : matchIdx tbl issue = none) :
    inventoryCurrentValue (some issue) (some p) (some f) tbl today = XV.text ""
    ∧ schedVarRateAt issue tbl m = XV.err
    ∧ schedValueAt issue p f tbl maxM m = XV.err := by
  refine ⟨?_, ?_, ?_⟩ <;> simp [inventoryCurrentValue, schedVarRateAt, schedValueAt, h]

/-- Witness for the amended C6, at the concrete lookup-miss input. -/
theorem claim6_witness :
    matchIdx tblC6 ⟨2024, 1, 15⟩ = none
    ∧ (inventoryCurrentValue (some ⟨2024, 1, 15⟩) (some 1000) (some (9 / 1000))
        tblC6 ⟨2026, 10, 12⟩ = XV.text ""
      ∧ schedVarRateAt ⟨2024, 1, 15⟩ tblC6 3 = XV.err
      ∧ schedValueAt ⟨2024, 1, 15⟩ 1000 (9 / 1000) tblC6 12 3 = XV.err) :=
  ⟨rfl, claim6_lookup_miss_amended ⟨2024, 1, 15⟩ 1000 (9 / 1000) tblC6
    ⟨2026, 10, 12⟩ 12 3 rfl⟩

/-- SEQUENCE(n, 1, 0, 1) enumerates 0, 1, ..., n-1. -/
theorem seqX_zero_one (n : ℕ) : seqX n 0 1 = List.range n := by
  simp [seqX]

/-- C8 (confirmed): for a resolved bond, the schedule spills exactly
monthsToProject + 1 rows; the MonthIndex column is 0..monthsToProject in
strictly ascending order and the Month column is the issue date advanced by
0..monthsToProject months. -/
theorem claim8_schedule_rows (sel : String) (inv : List InvRow) (issue : Date)
    (h : schedIssue sel inv = some issue) :
    ∃ idxCol monthCol,
      schedMonthIdxCol sel inv = some idxCol
      ∧ schedMonthCol sel inv = some monthCol
      ∧ idxCol.length = schedMonthsToProject sel inv + 1
      ∧ monthCol.length = schedMonthsToProject sel inv + 1
      ∧ (∀ j, j < schedMonthsToProject sel inv + 1 →
          idxCol.get? j = some j ∧ monthCol.get? j = some (edate issue j))
      ∧ List.Pairwise (· < ·) idxCol := by
  refine ⟨List.range (schedMonthsToProject sel inv + 1),
    (List.range (schedMonthsToProject sel inv + 1)).map (edate issue),
    ?_, ?_, ?_, ?_, ?_, ?_⟩
  · simp [schedMonthIdxCol, h, seqX_zero_one]
  · simp [schedMonthCol, h, seqX_zero_one]
  · simp
  · simp
  · intro j hj
    refine ⟨List.get?_range hj, ?_⟩
    rw [List.get?_map, List.get?_range hj]
    rfl
  · exact List.pairwise_lt_range _

/-- Witness for C8 on the sample inventory: the bond EX-0001 resolves and
its schedule columns have the stated shape. -/
theorem claim8_witness :
    schedIssue "EX-0001" invSample = some ⟨2024, 1, 15⟩
    ∧ ∃ idxCol monthCol,
        schedMonthIdxCol "EX-0001" invSample = some idxCol
        ∧ schedMonthCol "EX-0001" invSample = some monthCol
        ∧ idxCol.length = schedMonthsToProject "EX-0001" invSample + 1
        ∧ monthCol.length = schedMonthsToProject "EX-0001" invSample + 1
        ∧ (∀ j, j < schedMonthsToProject "EX-0001" invSample + 1 →
            idxCol.get? j = some j
            ∧ monthCol.get? j = some (edate ⟨2024, 1, 15⟩ j))
        ∧ List.Pairwise (· < ·) idxCol :=
  ⟨rfl, claim8_schedule_rows "EX-0001" invSample ⟨2024, 1, 15⟩ rfl⟩

/-- When every operand is positive, EXP(SUM(LN(v))) is the plain product. -/
theorem expSumLn_of_pos (l : List ℝ) (h : ∀ x ∈ l, 0 < x) :
    expSumLn l = some l.prod := by
  induction l with
  | nil => simp [expSumLn, sumLn, Real.exp_zero]
  | cons x xs ih =>
    have hx : 0 < x := h x (List.mem_cons_self x xs)
    have hxs := ih (fun y hy => h y (List.mem_cons_of_mem x hy))
    obtain ⟨s, hs, hes⟩ := Option.map_eq_some'.mp hxs
    show ((lnX x).bind fun lx => (sumLn xs).map fun t => lx + t).map Real.exp
      = some (x :: xs).prod
    rw [lnX, if_pos hx, Option.some_bind, hs]
    simp only [Option.map_some', Option.map_map, List.prod_cons]
    rw [Real.exp_add, Real.exp_log hx, hes]

/-- When some operand is nonpositive, LN faults and the sum is an error. -/
theorem sumLn_of_nonpos (l : List ℝ) (h : ∃ x ∈ l, x ≤ 0) : sumLn l = none := by
  induction l with
  | nil => simp at h
  | cons x xs ih =>
    show ((lnX x).bind fun lx => (sumLn xs).map fun t => lx + t) = none
    rcases h with ⟨y, hy, hy0⟩
    rcases List.mem_cons.mp hy with rfl | hmem
    · rw [lnX, if_neg (not_lt.mpr hy0)]
      rfl
    · rw [ih ⟨y, hmem, hy0⟩]
      cases lnX x <;> rfl

/-- C10 (confirmed): the Inventory CurrentValue formula encodes the
full-period product as EXP(SUM(LN(1 + composite/2))). With at least one
completed period, that encoding equals the direct product of the growth
factors whenever every factor is positive, and if any factor is nonpositive
the logarithm faults and the whole CurrentValue resolves to blank even
though the direct product is defined. -/
theorem claim10_expsumln_product (p f : ℝ) (tbl : RateTable) (s months : ℕ)
    (hk : months / 6 ≠ 0) :
    ((∀ x ∈ invFactors f tbl s (months / 6), 0 < x) →
      expSumLn (invFactors f tbl s (months / 6))
        = some (invFactors f tbl s (months / 6)).prod)
    ∧ ((∃ x ∈ invFactors f tbl s (months / 6), x ≤ 0) →
      expSumLn (invFactors f tbl s (months / 6)) = none
      ∧ invValueCore p f tbl s months = XV.text "") := by
  constructor
  · exact expSumLn_of_pos _
  · intro hex
    have hnone : expSumLn (invFactors f tbl s (months / 6)) = none := by
      rw [expSumLn, sumLn_of_nonpos _ hex]
      rfl
    refine ⟨hnone, ?_⟩
    simp only [invValueCore]
    rw [if_neg hk, hnone]

/-- Witness for C10: issue 2024-01-15, six months held, fixed rate 0 and a
variable rate of -300 percent make the single period factor -0.5, and
CurrentValue is blank. -/
theorem claim10_witness :
    (6 / 6 : ℕ) ≠ 0
    ∧ ((∀ x ∈ invFactors 0 [(⟨2024, 1, 1⟩, -3)] 0 (6 / 6), 0 < x) →
      expSumLn (invFactors 0 [(⟨2024, 1, 1⟩, -3)] 0 (6 / 6))
        = some (invFactors 0 [(⟨2024, 1, 1⟩, -3)] 0 (6 / 6)).prod)
    ∧ ((∃ x ∈ invFactors 0 [(⟨2024, 1, 1⟩, -3)] 0 (6 / 6), x ≤ 0) →
      expSumLn (invFactors 0 [(⟨2024, 1, 1⟩, -3)] 0 (6 / 6)) = none
      ∧ invValueCore 1000 0 [(⟨2024, 1, 1⟩, -3)] 0 6 = XV.text "") :=
  ⟨by norm_num,
    claim10_expsumln_product 1000 0 [(⟨2024, 1, 1⟩, -3)] 0 6 (by norm_num)⟩

/-- Reduction of the CurrentValue formula once the three inputs are present
and MATCH resolves. -/
theorem inventoryCurrentValue_some (issue : Date) (p f : ℝ) (tbl : RateTable)
    (today : Date) (s : ℕ) (hmatch : matchIdx tbl issue = some s) :
    inventoryCurrentValue (some issue) (some p) (some f) tbl today
      = invValueCore p f tbl s
        (if dateKey issue ≤ dateKey today then monthsBetween issue today else 0) := by
  simp only [inventoryCurrentValue, hmatch]

/-- C4 (amended): for a bond held exactly 6k whole months whose looked-up
variable rate is the constant v in every used period and whose period
growth factor is positive, CurrentValue is round(P * (1+(f+v+f*v)/2)^k, 2). -/
theorem claim4_constant_rate_whole_periods (issue today : Date) (p f v : ℝ)
    (tbl : RateTable) (k s : ℕ)
    (hle : dateKey issue ≤ dateKey today)
    (hm : monthsBetween issue today = 6 * k)
    (hmatch : matchIdx tbl issue = some s)
    (hv : ∀ i, i ≤ k → rateAt tbl (s + i) = v)
    (hg : 0 < periodGrowth f v) :
    inventoryCurrentValue (some issue) (some p) (some f) tbl today
      = XV.num (round2 (p * periodGrowth f v ^ k)) := by
  have hfac : invFactors f tbl s k = List.replicate k (periodGrowth f v) := by
    unfold invFactors
    rw [List.eq_replicate]
    refine ⟨by simp, ?_⟩
    intro b hb
    obtain ⟨i, hi, rfl⟩ := List.mem_map.mp hb
    rw [hv i (le_of_lt (List.mem_range.mp hi))]
  have hfull : expSumLn (invFactors f tbl s k) = some (periodGrowth f v ^ k) := by
    rw [hfac, expSumLn_of_pos _ (fun x hx => ?_), List.prod_replicate]
    rw [List.eq_of_mem_replicate hx]
    exact hg
  have hpf : powerX (periodGrowth f v) 0 = some 1 := by
    rw [powerX, if_pos hg]
    norm_num
  rw [inventoryCurrentValue_some issue p f tbl today s hmatch, if_pos hle, hm]
  simp only [invValueCore]
  have hk6 : 6 * k / 6 = k := by omega
  have hr6 : 6 * k % 6 = 0 := by omega
  rw [hk6, hr6, hv k le_rfl, hpf]
  by_cases hk0 : k = 0
  · subst hk0
    rw [if_pos rfl]
    show XV.num (round2 (p * 1 * 1)) = _
    norm_num
  · rw [if_neg hk0, hfull]
    show XV.num (round2 (p * periodGrowth f v ^ k * 1)) = _
    rw [mul_one]

/-- Rate table with a constant 5 percent variable rate every six months. -/
def tblC4 : RateTable :=
  [(⟨2024, 1, 1⟩, 5 / 100), (⟨2024, 7, 1⟩, 5 / 100), (⟨2025, 1, 1⟩, 5 / 100)]

/-- Witness for C4: a bond issued 2024-01-15 evaluated on 2025-01-15 has
been held 12 = 6*2 months and its CurrentValue is the rounded two-period
compound of the constant composite rate. -/
theorem claim4_witness :
    monthsBetween ⟨2024, 1, 15⟩ ⟨2025, 1, 15⟩ = 6 * 2
    ∧ inventoryCurrentValue (some ⟨2024, 1, 15⟩) (some 1000) (some (9 / 1000))
        tblC4 ⟨2025, 1, 15⟩
      = XV.num (round2 (1000 * periodGrowth (9 / 1000) (5 / 100) ^ 2)) :=
  ⟨by norm_num [monthsBetween],
    claim4_constant_rate_whole_periods ⟨2024, 1, 15⟩ ⟨2025, 1, 15⟩ 1000
      (9 / 1000) (5 / 100) tblC4 2 0
      (by norm_num [dateKey])
      (by norm_num [monthsBetween])
      rfl
      (fun i hi => by interval_cases i <;> norm_num [rateAt, tblC4])
      (by norm_num [periodGrowth, compositeRate])⟩

/-- C4 counterexample: with constant variable rate -300 percent (composite
-300 percent, period factor -0.5) over one whole period, CurrentValue is
blank, not round(P * (-0.5)^1, 2): the LN encoding faults on the
nonpositive factor. -/
theorem claim4_nonpositive_factor_blank :
    inventoryCurrentValue (some ⟨2024, 1, 15⟩) (some 1000) (some 0)
      [(⟨2024, 1, 1⟩, -3)] ⟨2024, 7, 15⟩ = XV.text ""
    ∧ XV.text "" ≠ XV.num (round2 (1000 * periodGrowth 0 (-3) ^ 1)) := by
  refine ⟨?_, fun h => XV.noConfusion h⟩
  norm_num [inventoryCurrentValue, invValueCore, invFactors, matchIdx, rateAt,
    periodGrowth, compositeRate, monthsBetween, dateKey, expSumLn, sumLn, lnX,
    List.range_succ]

/-- Monotonicity of the two-decimal rounding. -/
theorem round2_mono (x y : ℝ) (h : x ≤ y) : round2 x ≤ round2 y := by
  unfold round2
  rcases le_or_lt 0 x with hx | hx
  · have hy : 0 ≤ y := le_trans hx h
    rw [if_pos hx, if_pos hy]
    have hf : (⌊x * 100 + 1 / 2⌋ : ℝ) ≤ (⌊y * 100 + 1 / 2⌋ : ℝ) := by
      exact_mod_cast Int.floor_le_floor (by linarith)
    linarith
  · rcases le_or_lt 0 y with hy | hy
    · rw [if_neg (not_le.mpr hx), if_pos hy]
      have h1 : (0 : ℝ) ≤ (⌊y * 100 + 1 / 2⌋ : ℝ) := by
        exact_mod_cast Int.floor_nonneg.mpr (by linarith)
      have h2 : (0 : ℝ) ≤ (⌊-x * 100 + 1 / 2⌋ : ℝ) := by
        exact_mod_cast Int.floor_nonneg.mpr (by linarith)
      linarith
    · rw [if_neg (not_le.mpr hx), if_neg (not_le.mpr hy)]
      have hf : (⌊-y * 100 + 1 / 2⌋ : ℝ) ≤ (⌊-x * 100 + 1 / 2⌋ : ℝ) := by
        exact_mod_cast Int.floor_le_floor (by linarith)
      linarith

/-- The exact accrued-value multiplier of the Inventory formula at month
offset m: full-period product times the fractional-period factor. -/
def accrualVal (f : ℝ) (tbl : RateTable) (s m : ℕ) : ℝ :=
  (invFactors f tbl s (m / 6)).prod
    * periodGrowth f (rateAt tbl (s + m / 6)) ^ (((m % 6 : ℕ) : ℝ) / 6)

/-- Reduction of invValueCore when both option-valued steps succeed. -/
theorem invValueCore_eval (p f : ℝ) (tbl : RateTable) (s m : ℕ) (fp pf : ℝ)
    (hfp : (if m / 6 = 0 then some 1 else expSumLn (invFactors f tbl s (m / 6)))
      = some fp)
    (hpf : powerX (periodGrowth f (rateAt tbl (s + m / 6))) (m % 6) = some pf) :
    invValueCore p f tbl s m = XV.num (round2 (p * fp * pf)) := by
  simp only [invValueCore, hfp, hpf]

/-- With every period growth factor at least 1, the CurrentValue body is the
rounded product of the principal and the exact accrual multiplier. -/
theorem invValueCore_eq_accrual (p f : ℝ) (tbl : RateTable) (s m : ℕ)
    (hpos : ∀ i, 1 ≤ periodGrowth f (rateAt tbl (s + i))) :
    invValueCore p f tbl s m = XV.num (round2 (p * accrualVal f tbl s m)) := by
  have hg : (0 : ℝ) < periodGrowth f (rateAt tbl (s + m / 6)) :=
    lt_of_lt_of_le one_pos (hpos _)
  have hpf : powerX (periodGrowth f (rateAt tbl (s + m / 6))) (m % 6)
      = some (periodGrowth f (rateAt tbl (s + m / 6)) ^ (((m % 6 : ℕ) : ℝ) / 6)) := by
    rw [powerX, if_pos hg]
  have hfp : (if m / 6 = 0 then some 1 else expSumLn (invFactors f tbl s (m / 6)))
      = some (invFactors f tbl s (m / 6)).prod := by
    by_cases hk : m / 6 = 0
    · rw [if_pos hk, hk]
      simp [invFactors]
    · rw [if_neg hk]
      apply expSumLn_of_pos
      intro x hx
      obtain ⟨i, hi, rfl⟩ := List.mem_map.mp hx
      exact lt_of_lt_of_le one_pos (hpos i)
  rw [invValueCore_eval p f tbl s m _ _ hfp hpf, accrualVal, mul_assoc]

/-- The exact accrual multiplier grows month over month when every growth
factor is at least 1. -/
theorem accrualVal_le_succ (f : ℝ) (tbl : RateTable) (s m : ℕ)
    (hpos : ∀ i, 1 ≤ periodGrowth f (rateAt tbl (s + i))) :
    accrualVal f tbl s m ≤ accrualVal f tbl s (m + 1) := by
  have hprod : ∀ k, (0 : ℝ) ≤ (invFactors f tbl s k).prod := by
    intro k
    refine List.prod_nonneg ?_
    intro x hx
    obtain ⟨i, hi, rfl⟩ := List.mem_map.mp hx
    exact le_trans zero_le_one (hpos i)
  rcases Nat.lt_or_ge (m % 6) 5 with hr | hr
  · have h1 : (m + 1) / 6 = m / 6 := by omega
    have h2 : (m + 1) % 6 = m % 6 + 1 := by omega
    unfold accrualVal
    rw [h1, h2]
    apply mul_le_mul_of_nonneg_left _ (hprod _)
    apply Real.rpow_le_rpow_of_exponent_le (hpos _)
    have hc : ((m % 6 : ℕ) : ℝ) ≤ ((m % 6 + 1 : ℕ) : ℝ) := by
      exact_mod_cast Nat.le_succ _
    linarith
  · have hr5 : m % 6 = 5 := by omega
    have h1 : (m + 1) / 6 = m / 6 + 1 := by omega
    have h2 : (m + 1) % 6 = 0 := by omega
    unfold accrualVal
    rw [h1, h2, hr5]
    have hfac : invFactors f tbl s (m / 6 + 1)
        = invFactors f tbl s (m / 6) ++ [periodGrowth f (rateAt tbl (s + m / 6))] := by
      unfold invFactors
      rw [List.range_succ, List.map_append]
      rfl
    rw [hfac, List.prod_append, List.prod_singleton]
    rw [Nat.cast_zero, zero_div, Real.rpow_zero, mul_one]
    apply mul_le_mul_of_nonneg_left _ (hprod _)
    calc periodGrowth f (rateAt tbl (s + m / 6)) ^ (((5 : ℕ) : ℝ) / 6)
        ≤ periodGrowth f (rateAt tbl (s + m / 6)) ^ (1 : ℝ) :=
          Real.rpow_le_rpow_of_exponent_le (hpos _) (by norm_num)
      _ = periodGrowth f (rateAt tbl (s + m / 6)) := Real.rpow_one _

/-- The exact accrual multiplier is monotone in the month offset. -/
theorem accrualVal_mono (f : ℝ) (tbl : RateTable) (s : ℕ)
    (hpos : ∀ i, 1 ≤ periodGrowth f (rateAt tbl (s + i)))
    {m1 m2 : ℕ} (h : m1 ≤ m2) :
    accrualVal f tbl s m1 ≤ accrualVal f tbl s m2 := by
  induction m2, h using Nat.le_induction with
  | base => exact le_refl _
  | succ n hn ih => exact le_trans ih (accrualVal_le_succ f tbl s n hpos)

/-- C7 amended: for fixed nonnegative purchase amount and fixed rate data
with every looked-up composite rate nonnegative, the Inventory CurrentValue
body is defined at every month offset and non-decreasing in it. -/
theorem claim7_inventory_value_monotone (p f : ℝ) (tbl : RateTable)
    (s m1 m2 : ℕ) (hp : 0 ≤ p) (hm : m1 ≤ m2)
    (hcomp : ∀ i, 0 ≤ compositeRate f (rateAt tbl (s + i))) :
    ∃ x1 x2, invValueCore p f tbl s m1 = XV.num x1
      ∧ invValueCore p f tbl s m2 = XV.num x2 ∧ x1 ≤ x2 := by
  have hpos : ∀ i, 1 ≤ periodGrowth f (rateAt tbl (s + i)) := by
    intro i
    have := hcomp i
    unfold periodGrowth
    linarith
  exact ⟨_, _, invValueCore_eq_accrual p f tbl s m1 hpos,
    invValueCore_eq_accrual p f tbl s m2 hpos,
    round2_mono _ _ (mul_le_mul_of_nonneg_left (accrualVal_mono f tbl s hpos hm) hp)⟩

/-- Witness for the amended C7 on the concrete two-entry table. -/
theorem claim7_witness :
    (0 : ℝ) ≤ 1000 ∧ (2 : ℕ) ≤ 9
    ∧ ∃ x1 x2, invValueCore 1000 0 tblC2 0 2 = XV.num x1
      ∧ invValueCore 1000 0 tblC2 0 9 = XV.num x2 ∧ x1 ≤ x2 :=
  ⟨by norm_num, by norm_num,
    claim7_inventory_value_monotone 1000 0 tblC2 0 2 9 (by norm_num) (by norm_num)
      (fun i => by
        match i with
        | 0 => norm_num [compositeRate, rateAt, tblC2]
        | 1 => norm_num [compositeRate, rateAt, tblC2]
        | n + 2 => simp [compositeRate, rateAt, tblC2])⟩

/-- POWER of a perfect sixth power at exponent r/6 collapses to an integer
power. -/
theorem powerX_sixth_pow (c : ℝ) (r : ℕ) (hc : 0 < c) :
    powerX (c ^ (6 : ℕ)) r = some (c ^ r) := by
  rw [powerX, if_pos (by positivity)]
  congr 1
  rw [← Real.rpow_natCast c 6, ← Real.rpow_mul hc.le]
  rw [show ((6 : ℕ) : ℝ) * ((r : ℝ) / 6) = ((r : ℕ) : ℝ) by push_cast; ring]
  exact Real.rpow_natCast c r

/-- The partial factor of the 1.771561 growth factor five months into a
period is exactly 1.61051. -/
theorem powerX_at_1p1 : powerX (1771561 / 1000000 : ℝ) 5
    = some (161051 / 100000 : ℝ) := by
  have h : (1771561 / 1000000 : ℝ) = (11 / 10) ^ (6 : ℕ) := by norm_num
  rw [h, powerX_sixth_pow (11 / 10 : ℝ) 5 (by norm_num)]
  norm_num

/-- Rate table with nonnegative composite rates: a large variable rate of
154.3122 percent effective 2024-01-01 followed by 0 percent effective
2024-07-01, chosen so the first period growth factor is 1.1^6. -/
def tblC7 : RateTable := [(⟨2024, 1, 1⟩, 1543122 / 1000000), (⟨2024, 7, 1⟩, 0)]

/-- C7 counterexample: on the BondSchedule Value column, with every
looked-up composite rate nonnegative, the value at MonthIndex 5 (2853.12)
exceeds the value at MonthIndex 6 (1771.56): the extra growth factor the
schedule multiplies in makes its column non-monotone across the period
boundary when the rate drops. -/
theorem claim7_schedule_not_monotone :
    0 ≤ compositeRate 0 (rateAt tblC7 0)
    ∧ 0 ≤ compositeRate 0 (rateAt tblC7 1)
    ∧ schedValueAt ⟨2024, 1, 15⟩ 1000 0 tblC7 6 5 = XV.num (285312 / 100)
    ∧ schedValueAt ⟨2024, 1, 15⟩ 1000 0 tblC7 6 6 = XV.num (177156 / 100)
    ∧ ¬ ((285312 : ℝ) / 100 ≤ 177156 / 100) := by
  refine ⟨by norm_num [compositeRate, rateAt, tblC7],
    by norm_num [compositeRate, rateAt, tblC7], ?_, ?_, by norm_num⟩
  · norm_num [schedValueAt, matchIdx, rateAt, periodGrowth, compositeRate,
      dateKey, tblC7, scanX, List.range_succ, powerX_at_1p1, round2]
  · norm_num [schedValueAt, matchIdx, rateAt, periodGrowth, compositeRate,
      powerX, dateKey, tblC7, scanX, List.range_succ, round2]

/-- Every month has at least 28 days. -/
theorem le_daysInMonth (y m : ℕ) : 28 ≤ daysInMonth y m := by
  unfold daysInMonth
  split
  · split <;> norm_num
  · split <;> norm_num

/-- For a well-formed date with day at most 28, EDATE preserves the day and
shifts the key linearly. -/
theorem dateKey_edate (a : Date) (n : ℕ) (hm1 : 1 ≤ a.m) (hd : a.d ≤ 28) :
    dateKey (edate a n) = dateKey a + 32 * n := by
  simp only [edate, dateKey]
  rw [min_eq_left (le_trans hd (le_daysInMonth _ _))]
  have h := Nat.div_add_mod (a.y * 12 + (a.m - 1) + n) 12
  omega

/-- A failed MATCH means no entry is at or before the lookup date. -/
theorem matchIdx_none (tbl : RateTable) (x : Date) (h : matchIdx tbl x = none) :
    ∀ j e, tbl.get? j = some e → ¬ dateKey e.1 ≤ dateKey x := by
  induction tbl with
  | nil => intro j e hg; simp at hg
  | cons a rest ih =>
    intro j e hg
    simp only [matchIdx] at h
    cases hr : matchIdx rest x with
    | some jr => rw [hr] at h; exact Option.noConfusion h
    | none =>
      rw [hr] at h
      cases j with
      | zero =>
        have ha : a = e := by simpa using hg
        intro hle
        rw [if_pos (ha ▸ hle)] at h
        exact Option.noConfusion h
      | succ jp => exact ih hr jp e (by simpa using hg)

/-- A successful MATCH points at an entry at or before the lookup date. -/
theorem matchIdx_some_le (tbl : RateTable) (x : Date) (j : ℕ)
    (h : matchIdx tbl x = some j) :
    ∃ e, tbl.get? j = some e ∧ dateKey e.1 ≤ dateKey x := by
  induction tbl generalizing j with
  | nil => simp [matchIdx] at h
  | cons a rest ih =>
    simp only [matchIdx] at h
    cases hr : matchIdx rest x with
    | some jr =>
      rw [hr] at h
      obtain rfl : jr + 1 = j := Option.some.inj h
      obtain ⟨e, hg, hle⟩ := ih jr hr
      exact ⟨e, by simpa using hg, hle⟩
    | none =>
      rw [hr] at h
      by_cases hle : dateKey a.1 ≤ dateKey x
      · rw [if_pos hle] at h
        obtain rfl : 0 = j := Option.some.inj h
        exact ⟨a, rfl, hle⟩
      · rw [if_neg hle] at h
        exact Option.noConfusion h

/-- A successful MATCH points at the last entry at or before the lookup
date. -/
theorem matchIdx_some_max (tbl : RateTable) (x : Date) (j : ℕ)
    (h : matchIdx tbl x = some j) :
    ∀ j2 e2, tbl.get? j2 = some e2 → dateKey e2.1 ≤ dateKey x → j2 ≤ j := by
  induction tbl generalizing j with
  | nil => intro j2 e2 hg; simp at hg
  | cons a rest ih =>
    intro j2 e2 hg hle
    simp only [matchIdx] at h
    cases hr : matchIdx rest x with
    | some jr =>
      rw [hr] at h
      obtain rfl : jr + 1 = j := Option.some.inj h
      cases j2 with
      | zero => omega
      | succ j2p =>
        have := ih jr hr j2p e2 (by simpa using hg) hle
        omega
    | none =>
      rw [hr] at h
      cases j2 with
      | zero =>
        by_cases hha : dateKey a.1 ≤ dateKey x
        · rw [if_pos hha] at h
          obtain rfl : 0 = j := Option.some.inj h
          exact le_refl 0
        · rw [if_neg hha] at h
          exact Option.noConfusion h
      | succ j2p =>
        exact absurd hle (matchIdx_none rest x hr j2p e2 (by simpa using hg))

/-- Characterization used to compute MATCH: an entry at or before the
lookup date whose successors are all after it is the MATCH result. -/
theorem matchIdx_eq_some_of (tbl : RateTable) (x : Date) (j : ℕ)
    (e : Date × ℝ) (hg : tbl.get? j = some e) (hle : dateKey e.1 ≤ dateKey x)
    (hmax : ∀ j2 e2, tbl.get? j2 = some e2 → dateKey e2.1 ≤ dateKey x → j2 ≤ j) :
    matchIdx tbl x = some j := by
  induction tbl generalizing j with
  | nil => simp at hg
  | cons a rest ih =>
    simp only [matchIdx]
    cases hr : matchIdx rest x with
    | some jr =>
      obtain ⟨er, hgr, hler⟩ := matchIdx_some_le rest x jr hr
      have h1 : jr + 1 ≤ j := hmax (jr + 1) er (by simpa using hgr) hler
      cases j with
      | zero => omega
      | succ jp =>
        have h2 : jp ≤ jr := matchIdx_some_max rest x jr hr jp e (by simpa using hg) hle
        have : jr = jp := by omega
        rw [this]
    | none =>
      have hnone := matchIdx_none rest x hr
      cases j with
      | succ jp => exact absurd hle (hnone jp e (by simpa using hg))
      | zero =>
        have ha : a = e := by simpa using hg
        rw [if_pos (ha ▸ hle)]

/-- The entry at an index exists whenever the index is within bounds. -/
theorem entry_exists (tbl : RateTable) (j : ℕ) (h : j < tbl.length) :
    ∃ e, tbl.get? j = some e :=
  ⟨tbl.get ⟨j, h⟩, List.get?_eq_get h⟩

/-- Along a table whose consecutive effective dates are exactly six months
apart (with well-formed dates of day at most 28), keys grow by 192 per
step. -/
theorem tblKeyChain (tbl : RateTable)
    (hspace : ∀ j e e2, tbl.get? j = some e → tbl.get? (j + 1) = some e2 →
      e2.1 = edate e.1 6)
    (hwf : ∀ e ∈ tbl, 1 ≤ e.1.m ∧ e.1.d ≤ 28) :
    ∀ a n e e2, tbl.get? a = some e → tbl.get? (a + n) = some e2 →
      dateKey e2.1 = dateKey e.1 + 192 * n := by
  intro a n
  induction n with
  | zero =>
    intro e e2 h1 h2
    rw [Nat.add_zero] at h2
    obtain rfl : e = e2 := Option.some.inj (h1.symm.trans h2)
    omega
  | succ n ih =>
    intro e e2 h1 h2
    have hlen : a + n < tbl.length := by
      by_contra hc
      push_neg at hc
      rw [List.get?_eq_none.mpr (by omega)] at h2
      exact Option.noConfusion h2
    obtain ⟨em, hem⟩ := entry_exists tbl (a + n) hlen
    have hkey := ih e em h1 hem
    have hsp := hspace (a + n) em e2 hem h2
    have hwfm := hwf em (List.get?_mem hem)
    rw [hsp, dateKey_edate em.1 6 hwfm.1 hwfm.2, hkey]
    omega

/-- C3 counterexample: with the ascending table 2 percent effective
2024-01-01 and 3 percent effective 2025-01-01 (twelve months apart) and a
bond issued 2024-01-15, the formulas use the 3 percent entry for period 1,
but the latest rate with effective date at most 2024-07-15 is 2 percent. -/
theorem claim3_index_lookup_cex :
    codeRateAtPeriod [(⟨2024, 1, 1⟩, 2 / 100), (⟨2025, 1, 1⟩, 3 / 100)]
      ⟨2024, 1, 15⟩ 1 = some (3 / 100)
    ∧ specLatestRateLE [(⟨2024, 1, 1⟩, 2 / 100), (⟨2025, 1, 1⟩, 3 / 100)]
      (edate ⟨2024, 1, 15⟩ (6 * 1)) = some (2 / 100)
    ∧ some ((3 : ℝ) / 100) ≠ some ((2 : ℝ) / 100) := by
  refine ⟨rfl, rfl, ?_⟩
  simp only [ne_eq, Option.some.injEq]
  norm_num

/-- C3 amended: the rate the formulas use for period i is the table entry
at index startIdx + i; this coincides with the latest announced rate of
effective date at most issueDate + 6i months provided the table effective
dates are exactly six months apart, the dates involved have day of month at
most 28, and index startIdx + i is still inside the table. -/
theorem claim3_lookup_on_six_monthly_table (tbl : RateTable) (issue : Date)
    (i s : ℕ)
    (hm : matchIdx tbl issue = some s)
    (hspace : ∀ j e e2, tbl.get? j = some e → tbl.get? (j + 1) = some e2 →
      e2.1 = edate e.1 6)
    (hwf : ∀ e ∈ tbl, 1 ≤ e.1.m ∧ e.1.d ≤ 28)
    (him : 1 ≤ issue.m) (hid : issue.d ≤ 28)
    (hrange : s + i < tbl.length) :
    codeRateAtPeriod tbl issue i = specLatestRateLE tbl (edate issue (6 * i)) := by
  obtain ⟨es, hgs, hles⟩ := matchIdx_some_le tbl issue s hm
  obtain ⟨ei, hgi⟩ := entry_exists tbl (s + i) hrange
  have hchain1 := tblKeyChain tbl hspace hwf s i es ei hgs hgi
  have htarget : dateKey (edate issue (6 * i)) = dateKey issue + 192 * i := by
    rw [dateKey_edate issue (6 * i) him hid]
    omega
  have hlei : dateKey ei.1 ≤ dateKey (edate issue (6 * i)) := by omega
  have hmax : ∀ j2 e2, tbl.get? j2 = some e2 →
      dateKey e2.1 ≤ dateKey (edate issue (6 * i)) → j2 ≤ s + i := by
    intro j2 e2 hg2 hle2
    by_contra hgt
    push_neg at hgt
    have hlen2 : j2 < tbl.length := by
      by_contra hc
      push_neg at hc
      rw [List.get?_eq_none.mpr (by omega)] at hg2
      exact Option.noConfusion hg2
    obtain ⟨e3, hg3⟩ := entry_exists tbl (s + i + 1) (by omega)
    obtain ⟨e4, hg4⟩ := entry_exists tbl (s + 1) (by omega)
    have hchain2 := tblKeyChain tbl hspace hwf (s + i + 1) (j2 - (s + i + 1)) e3 e2
      hg3 (by rw [show s + i + 1 + (j2 - (s + i + 1)) = j2 by omega]; exact hg2)
    have hchain3 := tblKeyChain tbl hspace hwf s (i + 1) es e3 hgs
      (by rw [show s + (i + 1) = s + i + 1 by omega]; exact hg3)
    have hkey4 : dateKey e4.1 = dateKey es.1 + 192 := by
      have := tblKeyChain tbl hspace hwf s 1 es e4 hgs
        (by rw [show s + 1 = s + 1 by rfl]; exact hg4)
      omega
    have hnotle : ¬ dateKey e4.1 ≤ dateKey issue := by
      intro hcon
      have := matchIdx_some_max tbl issue s hm (s + 1) e4 hg4 hcon
      omega
    omega
  have hmidx : matchIdx tbl (edate issue (6 * i)) = some (s + i) :=
    matchIdx_eq_some_of tbl _ (s + i) ei hgi hlei hmax
  unfold codeRateAtPeriod specLatestRateLE
  rw [hm, hmidx]
  rfl

/-- Witness for the amended C3 on the concrete six-monthly table. -/
theorem claim3_witness :
    matchIdx tblC4 ⟨2024, 1, 15⟩ = some 0
    ∧ codeRateAtPeriod tblC4 ⟨2024, 1, 15⟩ 1
      = specLatestRateLE tblC4 (edate ⟨2024, 1, 15⟩ (6 * 1)) :=
  ⟨rfl, claim3_lookup_on_six_monthly_table tblC4 ⟨2024, 1, 15⟩ 1 0 rfl
    (fun j e e2 h1 h2 => by
      match j with
      | 0 =>
        obtain rfl : ((⟨2024, 1, 1⟩, 5 / 100) : Date × ℝ) = e := by
          simpa [tblC4] using h1
        obtain rfl : ((⟨2024, 7, 1⟩, 5 / 100) : Date × ℝ) = e2 := by
          simpa [tblC4] using h2
        decide
      | 1 =>
        obtain rfl : ((⟨2024, 7, 1⟩, 5 / 100) : Date × ℝ) = e := by
          simpa [tblC4] using h1
        obtain rfl : ((⟨2025, 1, 1⟩, 5 / 100) : Date × ℝ) = e2 := by
          simpa [tblC4] using h2
        decide
      | n + 2 => simp [tblC4] at h2)
    (fun e he => by
      simp only [tblC4, List.mem_cons, List.not_mem_nil, or_false] at he
      rcases he with rfl | rfl | rfl <;> norm_num)
    (by norm_num) (by norm_num) (by decide)⟩

end
